import Mathlib

/-!
Verification of the state-reconciliation behaviour of two Ansible modules:
`na_ontap_igroup.py` (ONTAP iSCSI/FC initiator groups) and
`azure_rm_netapp_volume.py` (Azure NetApp Files volumes).

The module code under `plugins/modules` is embedded faithfully; the shared
helper `NetAppModule` from `module_utils` (not part of the sources) is
modelled from the specification, as marked on each such definition.
-/

namespace Netapp

/-- The `state` module parameter: desired presence of the resource. -/
inductive DState
  | present
  | absent
deriving DecidableEq

/-- A create-or-delete action as returned by the reconciliation helper. -/
inductive CDAction
  | create
  | delete
deriving DecidableEq

/-- Modelled from the spec: `NetAppModule.get_cd_action` (module_utils, not
under src/). "Action selection: absent resource + desired state present →
create; present resource + desired state absent → delete; otherwise → none."
Returning `some` marks the run as changed. -/
def get_cd_action (current : Option α) (state : DState) : Option CDAction :=
  match current, state with
  | none, DState.present => some CDAction.create
  | some _, DState.absent => some CDAction.delete
  | _, _ => none

/-- Modelled from the spec: `NetAppModule.is_rename_action` (module_utils, not
under src/). "If a resource named from_name exists and one named name does
not, treat it as rename-then-modify"; when neither exists the caller fails
(`none` signals the error case, as used at line 492 of the igroup module). -/
def is_rename_action (source target : Option α) : Option Bool :=
  match source, target with
  | none, none => none
  | some _, none => some true
  | _, some _ => some false

/-- Case-fold a string: the Python `str.lower` on ASCII letters, written as
a character map so that it evaluates by structural recursion. -/
def lowerStr (s : String) : String := String.mk (s.data.map Char.toLower)

/-- Is this character one of the hexadecimal digits used inside a WWN. -/
def isHexChar (c : Char) : Bool :=
  (48 ≤ c.toNat && c.toNat ≤ 57) || (97 ≤ c.toNat && c.toNat ≤ 102)
    || (65 ≤ c.toNat && c.toNat ≤ 70)

/-- Are these characters `n` colon-separated pairs of hex digits. -/
def wwnAux : Nat → List Char → Bool
  | 1, [a, b] => isHexChar a && isHexChar b
  | n + 2, a :: b :: c :: rest =>
    isHexChar a && isHexChar b && (c = Char.ofNat 58) && wwnAux (n + 1) rest
  | _, _ => false

/-- Does the string have the World Wide Name shape: eight colon-separated
pairs of hexadecimal digits, such as 20:00:00:25:B5:00:20:01. -/
def isWwn (s : String) : Bool := wwnAux 8 s.data

/-- Modelled from the spec: `NetAppModule.sanitize_wwn` (module_utils, not
under src/). Initiator names in WWN format are case-folded to the canonical
lower-case form; any other initiator name is returned unchanged. -/
def sanitize_wwn (initiator : String) : String :=
  if isWwn initiator then lowerStr initiator else initiator

/-- Boolean set-equality of two lists of strings (order and multiplicity
ignored), used to compare initiator lists. -/
def sameSet (l1 l2 : List String) : Bool :=
  l1.all (fun x => l2.contains x) && l2.all (fun x => l1.contains x)

/-- Module parameters of `na_ontap_igroup` after `set_parameters`: only the
keys the reconciliation logic reads.  An `Option` field is a parameter the
user may omit (omitted parameters are dropped by `set_parameters`). -/
structure IgroupParams where
  state : DState
  name : String
  vserver : String
  from_name : Option String := none
  os_type : Option String := none
  initiator_group_type : Option String := none
  initiators : Option (List String) := none
  bind_portset : Option String := none
  force_remove_initiator : Bool := false
deriving DecidableEq

/-- Lines 203-205 of the igroup module: when the `initiators` parameter is
given, every element is passed through `sanitize_wwn` before being stored
in `self.parameters`. -/
def set_initiators_param (p : IgroupParams) (raw : Option (List String)) : IgroupParams :=
  match raw with
  | some l => { p with initiators := some (l.map sanitize_wwn) }
  | none => p

/-- The observed-state record built by `get_igroup_rest` (lines 233-256):
name, uuid, vserver, os_type, protocol and the initiator name list
(defaulting to empty when the REST body has no initiators). -/
structure Igroup where
  name : String
  uuid : String
  vserver : String
  os_type : String
  initiator_group_type : String
  initiators : List String
deriving DecidableEq

/-- The changed-field report: for each comparable field, `some (old, new)`
when the desired value differs from the observed one. -/
structure Modify where
  name : Option (String × String) := none
  vserver : Option (String × String) := none
  os_type : Option (String × String) := none
  initiator_group_type : Option (String × String) := none
  initiators : Option (List String × List String) := none
deriving DecidableEq

/-- Is the changed-field report empty (the Python `if modify:` test). -/
def Modify.isEmpty (m : Modify) : Bool :=
  m.name.isNone && m.vserver.isNone && m.os_type.isNone
    && m.initiator_group_type.isNone && m.initiators.isNone

/-- Modelled from the spec: `NetAppModule.get_modified_attributes`
(module_utils, not under src/). "If modify, the exact set of changed fields
with old/new values"; each desired field present in the observed record is
compared after normalization, initiator lists as sets.  A nonempty result
marks the run as changed. -/
def get_modified_attributes (current : Igroup) (p : IgroupParams) : Modify :=
  { name := if p.name = current.name then none else some (current.name, p.name)
    vserver := if p.vserver = current.vserver then none else some (current.vserver, p.vserver)
    os_type :=
      match p.os_type with
      | some v => if v = current.os_type then none else some (current.os_type, v)
      | none => none
    initiator_group_type :=
      match p.initiator_group_type with
      | some v =>
        if v = current.initiator_group_type then none
        else some (current.initiator_group_type, v)
      | none => none
    initiators :=
      match p.initiators with
      | some l => if sameSet l current.initiators then none else some (current.initiators, l)
      | none => none }

/-- Lines 311-319 of `add_initiators`: nothing is added when the desired
list is exactly `[""]` or absent; otherwise the desired initiators not
already in the igroup. -/
def initiators_to_add (p : IgroupParams) (current_initiators : List String) : List String :=
  match p.initiators with
  | none => []
  | some l =>
    if l = [""] then []
    else l.filter (fun i => !current_initiators.contains i)

/-- Lines 331-341 of `remove_initiators`: every current initiator not in the
desired list (the desired list defaulting to empty when the parameter is
absent, matching `self.parameters.get` with a list default). -/
def initiators_to_remove (p : IgroupParams) (current_initiators : List String) : List String :=
  current_initiators.filter (fun i => !(p.initiators.getD []).contains i)

/-- The body sent by `create_igroup` / `create_igroup_rest`: the REST body
carries the initiators; the ZAPI create does not (they are added with
separate calls afterwards). -/
structure CreateBody where
  name : String
  vserver : String
  os_type : Option String
  protocol : Option String
  portset : Option String
  initiators : Option (List String)
deriving DecidableEq

/-- One call issued to the remote system by the igroup module. -/
inductive Call
  | createIg (body : CreateBody)
  | deleteIg (uuid : Option String)
  | renameIg (fromName toName : String)
  | addInitiatorRest (uuid : String) (names : List String)
  | addInitiatorZapi (igroupName : String) (initiator : String)
  | removeInitiatorRest (uuid : String) (initiator : String)
  | removeInitiatorZapi (igroupName : String) (initiator : String)
  | patchIg (uuid : String) (newName : Option String) (newOsType : Option String)
deriving DecidableEq

/-- Calls issued by `create_igroup` (lines 359-404): one POST carrying the
initiators for REST; for ZAPI an `igroup-create` followed by
`add_initiators(None, [])`, one `igroup-add` per initiator. -/
def create_calls (use_rest : Bool) (p : IgroupParams) : List Call :=
  if use_rest then
    [Call.createIg
      { name := p.name, vserver := p.vserver, os_type := p.os_type,
        protocol := p.initiator_group_type, portset := p.bind_portset,
        initiators := p.initiators }]
  else
    Call.createIg
      { name := p.name, vserver := p.vserver, os_type := p.os_type,
        protocol := p.initiator_group_type, portset := p.bind_portset,
        initiators := none }
    :: (initiators_to_add p []).map (Call.addInitiatorZapi p.name)

/-- Calls issued by `add_initiators` (lines 311-324): a single batched REST
POST when a uuid is known, else one ZAPI `igroup-add` per initiator. -/
def addCalls (use_rest : Bool) (uuid : Option String) (p : IgroupParams)
    (current_initiators : List String) : List Call :=
  let toAdd := initiators_to_add p current_initiators
  if use_rest && uuid.isSome && !toAdd.isEmpty then
    [Call.addInitiatorRest (uuid.getD "") toAdd]
  else
    toAdd.map (Call.addInitiatorZapi p.name)

/-- Calls issued by `remove_initiators` (lines 331-341): one REST DELETE or
ZAPI `igroup-remove` per initiator to remove. -/
def removeCalls (use_rest : Bool) (uuid : Option String) (p : IgroupParams)
    (current_initiators : List String) : List Call :=
  (initiators_to_remove p current_initiators).map
    (fun i =>
      if use_rest then Call.removeInitiatorRest (uuid.getD "") i
      else Call.removeInitiatorZapi p.name i)

/-- Calls issued by `modify_igroup_rest` (lines 406-415) for the changed
fields other than initiators: a single PATCH when the body is nonempty.
The keys reaching this point are `name` and `os_type`; `validate_modify`
has already rejected every other key. -/
def patchCalls (uuid : Option String) (m : Modify) : List Call :=
  let rest := { m with initiators := none }
  if rest.isEmpty then []
  else [Call.patchIg (uuid.getD "") (m.name.map Prod.snd) (m.os_type.map Prod.snd)]

/-- Failure outcomes of an igroup run (`fail_json` calls reachable from
`apply`). -/
inductive IgErr
  | fromNameNotFound
  | osTypeRequired
  | modifyNotSupported (context : String)
deriving DecidableEq

/-- `validate_modify` (lines 470-483): for ZAPI no field other than
initiators may change; for REST only the keys of
`rest_modify_zapi_to_rest` (portset, name, os_type) may change. -/
def validate_modify (use_rest : Bool) (m : Modify) : Option IgErr :=
  let ml := { m with initiators := none }
  if use_rest then
    if ml.vserver.isNone && ml.initiator_group_type.isNone then none
    else some (IgErr.modifyNotSupported "REST")
  else
    if ml.isEmpty then none else some (IgErr.modifyNotSupported "ZAPI")

/-- Connection environment of a run: REST or ZAPI, and Ansible check mode. -/
structure Env where
  use_rest : Bool
  check_mode : Bool
deriving DecidableEq

/-- Line 505: the rename path is entered only when `from_name` is a truthy
(nonempty) parameter value. -/
def fromNameGiven (p : IgroupParams) : Bool :=
  p.from_name.getD "" ≠ ""

/-- Result of a successful igroup `apply`: the reported changed flag, the
final create/delete decision, the rename flag, the changed-field report,
the observed record the run worked against (`current` as reported by
`exit_json`, which on the rename path is the from_name record), and the
calls issued to the remote system, in order. -/
structure ApplyOk where
  changed : Bool
  cd_action : Option CDAction
  rename : Bool
  modify : Modify
  current : Option Igroup
  calls : List Call
deriving DecidableEq

/-- The single action a run stands for, following the dispatch order of
lines 520-527: rename wins, then create, then delete, then a nonempty
changed-field report, else nothing. -/
def ApplyOk.action (r : ApplyOk) : Option String :=
  if r.rename then some "rename"
  else
    match r.cd_action with
    | some CDAction.create => some "create"
    | some CDAction.delete => some "delete"
    | none => if r.modify.isEmpty then none else some "modify"

/-- `NetAppOntapIgroup.apply` (lines 499-533), embedded over the two igroup
lookups the run can make: `current` is `get_igroup(name)` and `old` is
`get_igroup(from_name)` (consulted only on the rename path).  Returns the
error raised, or the reported state and the calls issued. -/
def applyIgroup (env : Env) (p : IgroupParams) (current old : Option Igroup) :
    Except IgErr ApplyOk :=
  let cd0 := get_cd_action current p.state
  let renameStep : Except IgErr (Option CDAction × Bool × Option Igroup) :=
    if cd0 = some CDAction.create ∧ fromNameGiven p then
      match is_rename_action old current with
      | none => Except.error IgErr.fromNameNotFound
      | some true => Except.ok (none, true, old)
      | some false => Except.ok (cd0, false, current)
    else Except.ok (cd0, false, current)
  match renameStep with
  | Except.error e => Except.error e
  | Except.ok (cd1, rename1, current1) =>
    let modifyPair : Modify × Bool :=
      if cd1 = none ∧ p.state = DState.present then
        let m :=
          match current1 with
          | some c => get_modified_attributes c p
          | none => {}
        if env.use_rest then (m, false) else ({ m with name := none }, rename1)
      else ({}, rename1)
    let modify := modifyPair.1
    let rename2 := modifyPair.2
    let uuid : Option String :=
      match current1 with
      | some c => if env.use_rest then some c.uuid else none
      | none => none
    if cd1 = some CDAction.create ∧ env.use_rest ∧ p.os_type = none then
      Except.error IgErr.osTypeRequired
    else
      match validate_modify env.use_rest modify with
      | some e => Except.error e
      | none =>
        let changed := cd0.isSome || !modify.isEmpty
        let currentInits := (current1.map Igroup.initiators).getD []
        let calls :=
          if changed ∧ !env.check_mode then
            (if rename2 then [Call.renameIg (p.from_name.getD "") p.name]
             else if cd1 = some CDAction.create then create_calls env.use_rest p
             else if cd1 = some CDAction.delete then [Call.deleteIg uuid]
             else [])
            ++ (if !modify.isEmpty then
                  removeCalls env.use_rest uuid p currentInits
                  ++ addCalls env.use_rest uuid p currentInits
                  ++ patchCalls uuid modify
                else [])
          else []
        Except.ok
          { changed := changed, cd_action := cd1, rename := rename2,
            modify := modify, current := current1, calls := calls }

/-- Default os_type and protocol the remote assigns to an igroup created
without those options (the concrete strings are irrelevant to every
theorem: they matter only when the desired parameter is absent, in which
case no comparison reads them). -/
def remoteDefaultOsType : String := "default"

/-- Default protocol assigned by the remote on create without a protocol. -/
def remoteDefaultProtocol : String := "mixed"

/-- Uuid the remote assigns to a newly created igroup. -/
def freshUuid : String := "uuid-created"

/-- Effect of one issued call on the subject resource of the run (the
record the run observed: the igroup named `name`, or on the rename path the
igroup named `from_name`, which the rename moves under `name`). -/
def execCall (subject : Option Igroup) (c : Call) : Option Igroup :=
  match c with
  | Call.createIg b =>
    some
      { name := b.name, uuid := freshUuid, vserver := b.vserver,
        os_type := b.os_type.getD remoteDefaultOsType,
        initiator_group_type := b.protocol.getD remoteDefaultProtocol,
        initiators := b.initiators.getD [] }
  | Call.deleteIg _ => none
  | Call.renameIg _ toName => subject.map (fun o => { o with name := toName })
  | Call.addInitiatorRest u names =>
    subject.map (fun g =>
      if g.uuid = u then { g with initiators := g.initiators ++ names } else g)
  | Call.addInitiatorZapi _ i =>
    subject.map (fun g => { g with initiators := g.initiators ++ [i] })
  | Call.removeInitiatorRest u i =>
    subject.map (fun g =>
      if g.uuid = u then { g with initiators := g.initiators.filter (fun x => !(x == i)) }
      else g)
  | Call.removeInitiatorZapi _ i =>
    subject.map (fun g => { g with initiators := g.initiators.filter (fun x => !(x == i)) })
  | Call.patchIg u newName newOs =>
    subject.map (fun g =>
      if g.uuid = u then
        { g with name := newName.getD g.name, os_type := newOs.getD g.os_type }
      else g)

/-- Effect of a whole call sequence on the subject resource. -/
def execCalls (subject : Option Igroup) (calls : List Call) : Option Igroup :=
  calls.foldl execCall subject

/-- A mount target of an Azure NetApp Files volume. -/
structure MountTarget where
  ip_address : String
deriving DecidableEq

/-- The observed-state record of an Azure volume: the two fields the module
reads on its exit path.  `mount_targets` is `none` when the SDK reports the
field as null. -/
structure AzVolume where
  creation_token : String
  mount_targets : Option (List MountTarget)
deriving DecidableEq

/-- Module parameters of `azure_rm_netapp_volume`: the keys the
reconciliation and create logic read.  `file_path`, `location` and the
subnet options are required for `state=present` by `required_if`. -/
structure AzParams where
  state : DState
  name : String
  file_path : String
  location : String
  size : Option Nat := none
  service_level : Option String := none
  protocol_types : Option (List String) := none
deriving DecidableEq

/-- One export policy rule as built by `get_export_policy_rules`
(lines 207-229). -/
structure ExportPolicyRule where
  rule_index : Nat
  allowed_clients : String
  unix_read_write : Bool
  cifs : Bool
  nfsv3 : Bool
  nfsv41 : Bool
deriving DecidableEq

/-- `AzureRMNetAppVolume.get_export_policy_rules` (lines 207-229): protocol
names are case-folded, `nfsv41` is appended when `nfsv4.1` is requested and
otherwise no policy is built; each protocol flag is a membership test on
the case-folded list. -/
def get_export_policy_rules (protocol_types : Option (List String)) :
    Option (List ExportPolicyRule) :=
  match protocol_types with
  | none => none
  | some pt0 =>
    let ptypes := pt0.map lowerStr
    if ptypes.contains "nfsv4.1" then
      let ptypes := ptypes ++ ["nfsv41"]
      some
        [{ rule_index := 1, allowed_clients := "0.0.0.0/0", unix_read_write := true,
           cifs := ptypes.contains "cifs", nfsv3 := ptypes.contains "nfsv3",
           nfsv41 := ptypes.contains "nfsv41" }]
    else none

/-- One GiB in bytes (`ONE_GIB` at line 158). -/
def ONE_GIB : Nat := 1073741824

/-- The volume body sent by `create_azure_netapp_volume` (lines 231-258):
the size parameter (GiB) is converted to the byte-valued
`usage_threshold`, and the export policy is attached when built. -/
structure AzCreateBody where
  location : String
  creation_token : String
  usage_threshold : Option Nat
  service_level : Option String
  protocol_types : Option (List String)
  export_policy : Option (List ExportPolicyRule)
deriving DecidableEq

/-- Build the create body from the parameters (lines 236-258). -/
def azCreateBody (p : AzParams) : AzCreateBody :=
  { location := p.location, creation_token := p.file_path,
    usage_threshold := p.size.map (fun s => s * ONE_GIB),
    service_level := p.service_level,
    protocol_types := p.protocol_types,
    export_policy := get_export_policy_rules p.protocol_types }

/-- One call issued to Azure by the volume module. -/
inductive AzCall
  | createVolume (body : AzCreateBody)
  | deleteVolume
deriving DecidableEq

/-- Failure outcomes of the volume module exit path (lines 301-310): the
two `fail_json` calls, and the uncaught IndexError raised by
`mount_targets[0]` on an empty list. -/
inductive AzErr
  | volumeNotFound
  | mountTargetsNotFound
  | indexError
deriving DecidableEq

/-- Result of a successful Azure volume run: the reported changed flag, the
create/delete decision, the calls issued, the remote state after the run
and the reported message (the mount path when `state=present`). -/
structure AzResult where
  changed : Bool
  cd_action : Option CDAction
  calls : List AzCall
  after : Option AzVolume
  msg : String
deriving DecidableEq

/-- The remote volume state the exit-path re-read observes: unchanged in
check mode or when no action was decided; the created volume (whose mount
targets Azure assigns) after a create; absent after a delete. -/
def azAfterState (check_mode : Bool) (p : AzParams) (current : Option AzVolume)
    (created_mount_targets : Option (List MountTarget)) : Option AzVolume :=
  let cd := get_cd_action current p.state
  if cd.isSome ∧ !check_mode then
    match cd with
    | some CDAction.create =>
      some { creation_token := p.file_path, mount_targets := created_mount_targets }
    | some CDAction.delete => none
    | none => current
  else current

/-- `AzureRMNetAppVolume.exec_module` (lines 288-310), embedded over the
observed volume (`current`, the first `get_azure_netapp_volume`) and the
mount targets Azure assigns to a newly created volume
(`created_mount_targets`).  In check mode no create or delete is issued, so
the re-read on the exit path sees the unchanged remote state. -/
def azExecModule (check_mode : Bool) (p : AzParams) (current : Option AzVolume)
    (created_mount_targets : Option (List MountTarget)) : Except AzErr AzResult :=
  let cd := get_cd_action current p.state
  let changed := cd.isSome
  let calls :=
    if changed ∧ !check_mode then
      match cd with
      | some CDAction.create => [AzCall.createVolume (azCreateBody p)]
      | some CDAction.delete => [AzCall.deleteVolume]
      | none => []
    else []
  let after : Option AzVolume := azAfterState check_mode p current created_mount_targets
  if p.state = DState.present then
    match after with
    | none => Except.error AzErr.volumeNotFound
    | some v =>
      match v.mount_targets with
      | none => Except.error AzErr.mountTargetsNotFound
      | some [] => Except.error AzErr.indexError
      | some (t :: _) =>
        Except.ok
          { changed := changed, cd_action := cd, calls := calls, after := after,
            msg := t.ip_address ++ ":/" ++ v.creation_token }
  else
    Except.ok
      { changed := changed, cd_action := cd, calls := calls, after := after, msg := "" }

/-- An error surfaced by the Azure SDK volume lookup. -/
structure CloudError where
  message : String
deriving DecidableEq

/-- `AzureRMNetAppVolume.get_azure_netapp_volume` (lines 195-205): the SDK
get either raises `CloudError` (the volume does not exist) or returns the
volume; the raise is converted into an absent observed record. -/
def get_azure_netapp_volume (sdk_get : Except CloudError AzVolume) : Option AzVolume :=
  match sdk_get with
  | Except.error _ => none
  | Except.ok v => some v

/-- Errors of the REST record-count helper. -/
inductive RrhErr
  | unexpectedRecords
deriving DecidableEq

/-- Modelled from the spec: `rest_response_helpers.check_for_0_or_1_records`
(module_utils, not under src/).  Zero matching records is the absent case,
one record is returned, and more than one is an error. -/
def check_for_0_or_1_records (records : List α) : Except RrhErr (Option α) :=
  match records with
  | [] => Except.ok none
  | [r] => Except.ok (some r)
  | _ => Except.error RrhErr.unexpectedRecords

/-- The REST body of one igroup record as read by `get_igroup_rest`
(lines 233-256): the initiators field may be absent. -/
structure RestIgroupRecord where
  name : String
  uuid : String
  vserver : String
  os_type : String
  protocol : String
  initiators : Option (List String)
deriving DecidableEq

/-- `get_igroup_rest` (lines 233-256): zero matching records yield an
absent observed record rather than an error; one record is translated into
the observed-state record, initiators defaulting to the empty list. -/
def get_igroup_rest (records : List RestIgroupRecord) : Except RrhErr (Option Igroup) :=
  match check_for_0_or_1_records records with
  | Except.error e => Except.error e
  | Except.ok none => Except.ok none
  | Except.ok (some r) =>
    Except.ok (some
      { name := r.name, uuid := r.uuid, vserver := r.vserver, os_type := r.os_type,
        initiator_group_type := r.protocol, initiators := r.initiators.getD [] })

/-- REST connection, real (non-check-mode) run. -/
def envRest : Env := { use_rest := true, check_mode := false }

/-- ZAPI connection, real (non-check-mode) run. -/
def envZapi : Env := { use_rest := false, check_mode := false }

/-- An initiator name in WWN format spelled with an upper-case hex digit. -/
def wwnUpper : String := "20:00:00:25:B5:00:20:01"

/-- An existing igroup named ig1 holding one iSCSI initiator. -/
def curIg1 : Igroup :=
  { name := "ig1", uuid := "u1", vserver := "vs", os_type := "linux",
    initiator_group_type := "iscsi", initiators := ["iqn.a"] }

/-- The igroup ig1 after all its initiators have been removed. -/
def curIg1Empty : Igroup := { curIg1 with initiators := [] }

/-- Desired state for ig1 with the empty-string sentinel initiator list. -/
def pSentinel : IgroupParams :=
  { state := DState.present, name := "ig1", vserver := "vs", initiators := some [""] }

/-- An existing igroup named grp0, rename source for the from_name runs. -/
def oldGrp0 : Igroup :=
  { name := "grp0", uuid := "u0", vserver := "vs", os_type := "linux",
    initiator_group_type := "iscsi", initiators := ["iqn.a"] }

/-- Desired state asking for ig1 with `from_name=grp0`. -/
def pRename : IgroupParams :=
  { state := DState.present, name := "ig1", vserver := "vs", from_name := some "grp0" }

/-- An existing igroup whose initiator is stored in upper-case WWN form. -/
def obsWwn : Igroup :=
  { name := "ig2", uuid := "u2", vserver := "vs", os_type := "linux",
    initiator_group_type := "fcp", initiators := [wwnUpper] }

/-- Desired state for ig2, before the initiators parameter is set. -/
def pWwnBase : IgroupParams :=
  { state := DState.present, name := "ig2", vserver := "vs" }

/-- Azure volume parameters with `state=present`. -/
def pAzPresent : AzParams :=
  { state := DState.present, name := "vol1", file_path := "vol1path", location := "eastus" }

/-- Desired igroup state used by the C7 witness. -/
def pAddRemove : IgroupParams :=
  { state := DState.present, name := "ig3", vserver := "vs", initiators := some ["a", "b"] }

/-- An observed igroup whose initiator list is already in sanitized form. -/
def obsWwnLower : Igroup :=
  { name := "ig2", uuid := "u2", vserver := "vs", os_type := "linux",
    initiator_group_type := "fcp", initiators := ["20:00:00:25:b5:00:20:01"] }

/-- Azure volume parameters carrying a size, for the C5 witness. -/
def pAzSized : AzParams :=
  { state := DState.present, name := "vol2", file_path := "vol2path", location := "eastus",
    size := some 100 }

/-- Desired igroup state for a plain REST create run. -/
def pCreateW : IgroupParams :=
  { state := DState.present, name := "ig9", vserver := "vs", os_type := some "linux" }

/-- The result of the plain REST create run on an absent igroup. -/
def rCreateW : ApplyOk :=
  { changed := true, cd_action := some CDAction.create, rename := false, modify := {},
    current := none, calls := create_calls true pCreateW }

/-- The result of the ZAPI rename run from grp0 to ig1. -/
def rRenameW : ApplyOk :=
  { changed := true, cd_action := none, rename := true, modify := {},
    current := some oldGrp0, calls := [Call.renameIg "grp0" "ig1"] }

/-- Desired igroup state replacing the initiators of ig1 by iqn.b. -/
def pIdemW : IgroupParams :=
  { state := DState.present, name := "ig1", vserver := "vs", initiators := some ["iqn.b"] }

/-- The result of the REST run replacing the initiators of ig1 by iqn.b. -/
def rIdemW : ApplyOk :=
  { changed := true, cd_action := none, rename := false,
    modify := { initiators := some (["iqn.a"], ["iqn.b"]) },
    current := some curIg1,
    calls := [Call.removeInitiatorRest "u1" "iqn.a", Call.addInitiatorRest "u1" ["iqn.b"]] }

end Netapp

namespace Netapp

/-- C8: a resource that does not exist on the remote system is reported as an
absent observed record (`none`) rather than an error: the Azure volume
lookup turns a CloudError raise into `none`, and the igroup REST lookup
turns zero matching records into `none`. -/
theorem c8_absent_reported_as_none :
    (∀ e : CloudError, get_azure_netapp_volume (Except.error e) = none) ∧
    get_igroup_rest [] = Except.ok none := by
  exact ⟨fun _ => rfl, rfl⟩

/-- C10: a desired initiators list of exactly [""] makes `add_initiators`
add nothing, while `remove_initiators` still removes every current
initiator other than the empty string itself, emptying the igroup. -/
theorem c10_empty_string_sentinel (p : IgroupParams) (cur : List String)
    (h : p.initiators = some [""]) :
    initiators_to_add p cur = [] ∧
    (∀ i, i ∈ initiators_to_remove p cur ↔ (i ∈ cur ∧ i ≠ "")) ∧
    ((¬ "" ∈ cur) → initiators_to_remove p cur = cur) := by
  refine ⟨?_, ?_, ?_⟩
  · simp [initiators_to_add, h]
  · intro i
    simp [initiators_to_remove, h, List.mem_filter, List.elem_eq_mem]
  · intro hnot
    simp only [initiators_to_remove, h, Option.getD_some]
    rw [List.filter_eq_self]
    intro a ha
    simp only [List.contains, List.elem_eq_mem, List.mem_singleton, Bool.not_eq_true',
      decide_eq_false_iff_not]
    intro hc
    exact hnot (hc ▸ ha)

/-- C10 witness: with an igroup currently holding iqn.a and the sentinel
desired list [""], nothing is added and iqn.a is removed. -/
theorem c10_witness :
    initiators_to_add pSentinel ["iqn.a"] = [] ∧
    ("iqn.a" ∈ initiators_to_remove pSentinel ["iqn.a"]) ∧
    initiators_to_remove pSentinel ["iqn.a"] = ["iqn.a"] := by
  have h := c10_empty_string_sentinel pSentinel ["iqn.a"] rfl
  exact ⟨h.1, (h.2.1 "iqn.a").mpr (by decide), h.2.2 (by decide)⟩

/-- C7 as stated fails on the empty-string sentinel: with desired list [""]
the empty string is a desired initiator absent from the igroup, yet
`add_initiators` issues no add for it. -/
theorem c7_counterexample :
    initiators_to_add pSentinel ["iqn.a"] = [] ∧
    "" ∈ pSentinel.initiators.getD [] ∧ ¬ "" ∈ ["iqn.a"] := by
  refine ⟨rfl, by decide, by decide⟩

/-- C7 amended: except for the sentinel [""], the initiator calls are
minimal; an add is issued exactly for each desired initiator not currently
present, a remove exactly for each current initiator not desired, and an
initiator on both sides is neither added nor removed. -/
theorem c7_minimal_initiator_calls (p : IgroupParams) (cur l : List String)
    (h : p.initiators = some l) (hs : l ≠ [""]) :
    (∀ i, i ∈ initiators_to_add p cur ↔ (i ∈ l ∧ ¬ i ∈ cur)) ∧
    (∀ i, i ∈ initiators_to_remove p cur ↔ (i ∈ cur ∧ ¬ i ∈ l)) ∧
    (∀ i, i ∈ l → i ∈ cur →
      ¬ i ∈ initiators_to_add p cur ∧ ¬ i ∈ initiators_to_remove p cur) := by
  have hadd : ∀ i, i ∈ initiators_to_add p cur ↔ (i ∈ l ∧ ¬ i ∈ cur) := by
    intro i
    simp [initiators_to_add, h, hs, List.mem_filter, List.elem_eq_mem]
  have hrem : ∀ i, i ∈ initiators_to_remove p cur ↔ (i ∈ cur ∧ ¬ i ∈ l) := by
    intro i
    simp [initiators_to_remove, h, List.mem_filter, List.elem_eq_mem]
  refine ⟨hadd, hrem, ?_⟩
  intro i hl hc
  constructor
  · intro hmem
    exact ((hadd i).mp hmem).2 hc
  · intro hmem
    exact ((hrem i).mp hmem).2 hl

/-- C7 witness: desired [a, b] against current [b, c]; a is added, c is
removed, and b (present on both sides) is neither added nor removed. -/
theorem c7_witness :
    "a" ∈ initiators_to_add pAddRemove ["b", "c"] ∧
    "c" ∈ initiators_to_remove pAddRemove ["b", "c"] ∧
    (¬ "b" ∈ initiators_to_add pAddRemove ["b", "c"] ∧
     ¬ "b" ∈ initiators_to_remove pAddRemove ["b", "c"]) := by
  have h := c7_minimal_initiator_calls pAddRemove ["b", "c"] ["a", "b"] rfl (by decide)
  exact ⟨(h.1 "a").mpr (by decide), (h.2.1 "c").mpr (by decide),
    h.2.2 "b" (by decide) (by decide)⟩

/-- C4: from an optional observed record and the desired state, the helper
pair produces only create, delete or no action (modify being a nonempty
changed-field report), and the report is exact: a field is reported if and
only if it is desired and differs from the observed value, carrying that
observed value as old and the desired one as new. -/
theorem c4_action_set_and_exact_diff (c : Igroup) (p : IgroupParams) :
    (get_cd_action (some c) p.state = none ∨
      get_cd_action (some c) p.state = some CDAction.delete) ∧
    (get_cd_action (none : Option Igroup) p.state = none ∨
      get_cd_action (none : Option Igroup) p.state = some CDAction.create) ∧
    (∀ pr, (get_modified_attributes c p).name = some pr ↔
      (pr = (c.name, p.name) ∧ ¬ p.name = c.name)) ∧
    (∀ pr, (get_modified_attributes c p).vserver = some pr ↔
      (pr = (c.vserver, p.vserver) ∧ ¬ p.vserver = c.vserver)) ∧
    (∀ pr, (get_modified_attributes c p).os_type = some pr ↔
      (p.os_type = some pr.2 ∧ pr.1 = c.os_type ∧ ¬ pr.2 = c.os_type)) ∧
    (∀ pr, (get_modified_attributes c p).initiator_group_type = some pr ↔
      (p.initiator_group_type = some pr.2 ∧ pr.1 = c.initiator_group_type ∧
        ¬ pr.2 = c.initiator_group_type)) ∧
    (∀ pr, (get_modified_attributes c p).initiators = some pr ↔
      (p.initiators = some pr.2 ∧ pr.1 = c.initiators ∧
        sameSet pr.2 c.initiators = false)) := by
  refine ⟨?_, ?_, ?_, ?_, ?_, ?_, ?_⟩
  · cases p.state
    · exact Or.inl rfl
    · exact Or.inr rfl
  · cases p.state
    · exact Or.inr rfl
    · exact Or.inl rfl
  · intro pr
    by_cases hn : p.name = c.name
    · simp [get_modified_attributes, hn]
    · simp [get_modified_attributes, hn]
      tauto
  · intro pr
    by_cases hn : p.vserver = c.vserver
    · simp [get_modified_attributes, hn]
    · simp [get_modified_attributes, hn]
      tauto
  · intro pr
    obtain ⟨a, b⟩ := pr
    cases hos : p.os_type with
    | none => simp [get_modified_attributes, hos]
    | some v =>
      by_cases hv : v = c.os_type <;>
        simp only [get_modified_attributes, hos, hv, if_true, if_false] <;>
        aesop
  · intro pr
    obtain ⟨a, b⟩ := pr
    cases hig : p.initiator_group_type with
    | none => simp [get_modified_attributes, hig]
    | some v =>
      by_cases hv : v = c.initiator_group_type <;>
        simp only [get_modified_attributes, hig, hv, if_true, if_false] <;>
        aesop
  · intro pr
    obtain ⟨a, b⟩ := pr
    cases hin : p.initiators with
    | none => simp [get_modified_attributes, hin]
    | some l =>
      by_cases hv : sameSet l c.initiators = true <;>
        simp only [get_modified_attributes, hin, hv, if_true, if_false] <;>
        aesop

/-- C9: on the exit path of a `state=present` Azure run, the module fails
when the re-read volume is absent, fails when its mount targets are null or
empty, and otherwise reports the mount path built as the first mount
target's IP address, a colon, a slash, and the volume's creation token. -/
theorem c9_exit_path (check_mode : Bool) (p : AzParams) (current : Option AzVolume)
    (cmt : Option (List MountTarget)) (hp : p.state = DState.present) :
    (azAfterState check_mode p current cmt = none →
      azExecModule check_mode p current cmt = Except.error AzErr.volumeNotFound) ∧
    (∀ v, azAfterState check_mode p current cmt = some v → v.mount_targets = none →
      azExecModule check_mode p current cmt = Except.error AzErr.mountTargetsNotFound) ∧
    (∀ v, azAfterState check_mode p current cmt = some v → v.mount_targets = some [] →
      azExecModule check_mode p current cmt = Except.error AzErr.indexError) ∧
    (∀ v t ts, azAfterState check_mode p current cmt = some v →
      v.mount_targets = some (t :: ts) →
      (azExecModule check_mode p current cmt).map AzResult.msg =
        Except.ok (t.ip_address ++ ":/" ++ v.creation_token)) := by
  refine ⟨?_, ?_, ?_, ?_⟩
  · intro h
    simp [azExecModule, hp, h]
  · intro v h hmt
    simp [azExecModule, hp, h, hmt]
  · intro v h hmt
    simp [azExecModule, hp, h, hmt]
  · intro v t ts h hmt
    simp [azExecModule, hp, h, hmt, Except.map]

/-- C9 witness: a create run whose re-read volume carries one mount target
reports 10.0.0.4 followed by a colon, a slash and the creation token. -/
theorem c9_witness :
    (azExecModule false pAzPresent none (some [{ ip_address := "10.0.0.4" }])).map
      AzResult.msg = Except.ok "10.0.0.4:/vol1path" := by
  exact (c9_exit_path false pAzPresent none (some [{ ip_address := "10.0.0.4" }]) rfl).2.2.2
    { creation_token := "vol1path", mount_targets := some [{ ip_address := "10.0.0.4" }] }
    { ip_address := "10.0.0.4" } [] rfl rfl

/-- C6: the claim holds for the igroup module but the Azure module breaks
it: a check-mode run with `state=present` and no existing volume decides a
create (a change would be made) yet fails on the exit path with an error
whose text wrongly asserts the volume was created, instead of reporting
`changed=true`. -/
theorem c6_checkmode_azure_create_fails :
    (get_cd_action (none : Option AzVolume) pAzPresent.state = some CDAction.create) ∧
    azExecModule true pAzPresent none none = Except.error AzErr.volumeNotFound := by
  exact ⟨rfl, rfl⟩

/-- C5 as stated fails: only the desired side is normalized.  With a WWN
stored upper-case on the remote and the very same string passed as the
desired initiator, sanitization lower-cases the desired copy only, the
igroup run reports a changed initiator field, and `changed = true` — a
spurious change between two identical representations. -/
theorem c5_counterexample :
    obsWwn.initiators = [wwnUpper] ∧
    ¬ (get_modified_attributes obsWwn
        (set_initiators_param pWwnBase (some [wwnUpper]))).initiators = none ∧
    (applyIgroup envRest (set_initiators_param pWwnBase (some [wwnUpper]))
        (some obsWwn) none).map ApplyOk.changed = Except.ok true := by
  refine ⟨rfl, by decide, by rfl⟩

/-- C5 amended: normalization is applied to the desired side only.  Two
desired-side representations of the same values always produce the same
changed-field report (initiators) and the same export policy (protocol
names), the size is converted from GiB to the byte unit the API uses, and
no spurious initiator change is reported provided the remote returns
initiators already in sanitized form. -/
theorem c5_desired_side_normalization (c : Igroup) (p : IgroupParams)
    (raw1 raw2 l pt1 pt2 : List String) (q : AzParams) :
    (raw1.map sanitize_wwn = raw2.map sanitize_wwn →
      get_modified_attributes c (set_initiators_param p (some raw1)) =
        get_modified_attributes c (set_initiators_param p (some raw2))) ∧
    (c.initiators.map sanitize_wwn = c.initiators →
      sameSet (l.map sanitize_wwn) c.initiators = true →
      (get_modified_attributes c (set_initiators_param p (some l))).initiators = none) ∧
    (pt1.map lowerStr = pt2.map lowerStr →
      get_export_policy_rules (some pt1) = get_export_policy_rules (some pt2)) ∧
    ((azCreateBody q).usage_threshold = q.size.map (fun s => s * 1073741824)) := by
  refine ⟨?_, ?_, ?_, rfl⟩
  · intro h
    simp only [set_initiators_param, h]
  · intro _ hss
    simp [get_modified_attributes, set_initiators_param, hss]
  · intro h
    simp only [get_export_policy_rules, h]

/-- Helper: executing an appended call sequence is sequential execution. -/
theorem execCalls_append (s : Option Igroup) (l1 l2 : List Call) :
    execCalls s (l1 ++ l2) = execCalls (execCalls s l1) l2 := by
  unfold execCalls
  rw [List.foldl_append]

/-- Helper: a sequence of per-initiator REST removals deletes exactly the
named initiators. -/
theorem exec_remove_rest (c : Igroup) (names : List String) :
    execCalls (some c) (names.map (Call.removeInitiatorRest c.uuid)) =
      some { c with initiators := c.initiators.filter (fun x => !names.contains x) } := by
  induction names generalizing c with
  | nil => simp [execCalls]
  | cons n ns ih =>
    simp only [execCalls, List.map_cons, List.foldl_cons, execCall, Option.map_some',
      eq_self_iff_true, if_true]
    have step : List.foldl execCall
        (some { c with initiators := c.initiators.filter (fun x => !(x == n)) })
        (ns.map (Call.removeInitiatorRest c.uuid)) =
        some { c with initiators :=
          (c.initiators.filter (fun x => !(x == n))).filter (fun x => !ns.contains x) } := by
      simpa [execCalls] using
        ih { c with initiators := c.initiators.filter (fun x => !(x == n)) }
    rw [step]
    rw [List.filter_filter]
    have hpt : (fun a => !ns.contains a && !(a == n)) = (fun x : String => !(n :: ns).contains x) := by
      funext x
      simp only [List.contains_cons, Bool.not_or]
      rw [Bool.and_comm]
    rw [hpt]

/-- Helper: a sequence of per-initiator ZAPI removals deletes exactly the
named initiators. -/
theorem exec_remove_zapi (c : Igroup) (gname : String) (names : List String) :
    execCalls (some c) (names.map (Call.removeInitiatorZapi gname)) =
      some { c with initiators := c.initiators.filter (fun x => !names.contains x) } := by
  induction names generalizing c with
  | nil => simp [execCalls]
  | cons n ns ih =>
    simp only [execCalls, List.map_cons, List.foldl_cons, execCall, Option.map_some']
    have step : List.foldl execCall
        (some { c with initiators := c.initiators.filter (fun x => !(x == n)) })
        (ns.map (Call.removeInitiatorZapi gname)) =
        some { c with initiators :=
          (c.initiators.filter (fun x => !(x == n))).filter (fun x => !ns.contains x) } := by
      simpa [execCalls] using
        ih { c with initiators := c.initiators.filter (fun x => !(x == n)) }
    rw [step]
    rw [List.filter_filter]
    have hpt : (fun a => !ns.contains a && !(a == n)) = (fun x : String => !(n :: ns).contains x) := by
      funext x
      simp only [List.contains_cons, Bool.not_or]
      rw [Bool.and_comm]
    rw [hpt]

/-- Helper: a sequence of per-initiator ZAPI additions appends exactly the
named initiators. -/
theorem exec_add_zapi (c : Igroup) (gname : String) (names : List String) :
    execCalls (some c) (names.map (Call.addInitiatorZapi gname)) =
      some { c with initiators := c.initiators ++ names } := by
  induction names generalizing c with
  | nil => simp [execCalls]
  | cons n ns ih =>
    simp only [execCalls, List.map_cons, List.foldl_cons, execCall, Option.map_some']
    have step : List.foldl execCall
        (some { c with initiators := c.initiators ++ [n] })
        (ns.map (Call.addInitiatorZapi gname)) =
        some { c with initiators := (c.initiators ++ [n]) ++ ns } := by
      simpa [execCalls] using ih { c with initiators := c.initiators ++ [n] }
    rw [step]
    simp

/-- Helper: the remove calls of a REST modify delete exactly the computed
initiators to remove. -/
theorem exec_removeCalls_rest (c : Igroup) (p : IgroupParams) (cur : List String) :
    execCalls (some c) (removeCalls true (some c.uuid) p cur) =
      some { c with initiators :=
        c.initiators.filter (fun x => !(initiators_to_remove p cur).contains x) } := by
  have h := exec_remove_rest c (initiators_to_remove p cur)
  simpa [removeCalls] using h

/-- Helper: the remove calls of a ZAPI modify delete exactly the computed
initiators to remove. -/
theorem exec_removeCalls_zapi (c : Igroup) (p : IgroupParams) (u : Option String)
    (cur : List String) :
    execCalls (some c) (removeCalls false u p cur) =
      some { c with initiators :=
        c.initiators.filter (fun x => !(initiators_to_remove p cur).contains x) } := by
  have h := exec_remove_zapi c p.name (initiators_to_remove p cur)
  simpa [removeCalls] using h

/-- Helper: the add calls of a REST modify append exactly the computed
initiators to add. -/
theorem exec_addCalls_rest (c : Igroup) (p : IgroupParams) (cur : List String) :
    execCalls (some c) (addCalls true (some c.uuid) p cur) =
      some { c with initiators := c.initiators ++ initiators_to_add p cur } := by
  by_cases hempty : (initiators_to_add p cur).isEmpty
  · rw [List.isEmpty_iff] at hempty
    simp [addCalls, hempty, execCalls]
  · simp only [addCalls, Option.isSome_some, Bool.true_and, Bool.and_true, hempty,
      Bool.not_false, if_pos, Option.getD_some]
    simp [execCalls, execCall]

/-- Helper: the add calls of a ZAPI modify append exactly the computed
initiators to add. -/
theorem exec_addCalls_zapi (c : Igroup) (p : IgroupParams) (u : Option String)
    (cur : List String) :
    execCalls (some c) (addCalls false u p cur) =
      some { c with initiators := c.initiators ++ initiators_to_add p cur } := by
  have h := exec_add_zapi c p.name (initiators_to_add p cur)
  simpa [addCalls] using h

/-- Helper: one PATCH against the subject updates its name and os_type. -/
theorem exec_patch (c : Igroup) (nm os : Option String) :
    execCalls (some c) [Call.patchIg c.uuid nm os] =
      some { c with name := nm.getD c.name, os_type := os.getD c.os_type } := by
  simp [execCalls, execCall]

/-- Helper: `sameSet` is membership equivalence. -/
theorem sameSet_iff (l1 l2 : List String) :
    sameSet l1 l2 = true ↔ ((∀ x, x ∈ l1 → x ∈ l2) ∧ (∀ x, x ∈ l2 → x ∈ l1)) := by
  simp [sameSet, List.all_eq_true, List.contains, List.elem_eq_mem]

/-- Helper: `sameSet` is reflexive. -/
theorem sameSet_refl (l : List String) : sameSet l l = true := by
  rw [sameSet_iff]
  exact ⟨fun _ hx => hx, fun _ hx => hx⟩

/-- Helper: after removing the initiators to remove and adding the
initiators to add, the resulting list is set-equal to the desired list. -/
theorem sameSet_converged (p : IgroupParams) (l cur : List String)
    (hp : p.initiators = some l) (hs : ¬ l = [""]) :
    sameSet l
      ((cur.filter (fun x => !(initiators_to_remove p cur).contains x))
        ++ initiators_to_add p cur) = true := by
  rw [sameSet_iff]
  constructor
  · intro x hx
    by_cases hxc : x ∈ cur
    · apply List.mem_append.mpr
      left
      apply List.mem_filter.mpr
      refine ⟨hxc, ?_⟩
      simp [initiators_to_remove, hp, List.contains, List.elem_eq_mem, List.mem_filter, hx]
    · apply List.mem_append.mpr
      right
      simp [initiators_to_add, hp, hs, List.mem_filter, List.contains, List.elem_eq_mem,
        hx, hxc]
  · intro x hx
    rcases List.mem_append.mp hx with hx1 | hx2
    · rcases List.mem_filter.mp hx1 with ⟨hxcur, hpred⟩
      by_contra hxl
      have hmem : x ∈ initiators_to_remove p cur := by
        simp [initiators_to_remove, hp, List.mem_filter, hxcur, List.contains,
          List.elem_eq_mem, hxl]
      simp [List.contains, List.elem_eq_mem, hmem] at hpred
    · have hx3 : x ∈ l.filter (fun i => !cur.contains i) := by
        simpa [initiators_to_add, hp, hs] using hx2
      exact (List.mem_filter.mp hx3).1

/-- Helper: an empty changed-field report is the empty record. -/
theorem modify_isEmpty_iff (m : Modify) : m.isEmpty = true ↔ m = {} := by
  cases m
  simp [Modify.isEmpty, Option.isNone_iff_eq_none, Modify.mk.injEq, Bool.and_eq_true,
    and_assoc]

/-- Helper: a field-wise converged observed record yields an empty
changed-field report. -/
theorem get_modified_attributes_empty (g : Igroup) (p : IgroupParams)
    (h1 : p.name = g.name) (h2 : p.vserver = g.vserver)
    (h3 : ∀ v, p.os_type = some v → v = g.os_type)
    (h4 : ∀ v, p.initiator_group_type = some v → v = g.initiator_group_type)
    (h5 : ∀ l, p.initiators = some l → sameSet l g.initiators = true) :
    get_modified_attributes g p = {} := by
  unfold get_modified_attributes
  cases hos : p.os_type <;> cases hig : p.initiator_group_type <;>
    cases hin : p.initiators <;>
    simp_all

/-- Helper: a second run against a converged present record reports no
change. -/
theorem apply_changed_false (env : Env) (p : IgroupParams) (g : Igroup)
    (old2 : Option Igroup) (hst : p.state = DState.present)
    (hM : get_modified_attributes g p = {}) :
    (applyIgroup env p (some g) old2).map ApplyOk.changed = Except.ok false := by
  by_cases hr : env.use_rest
  all_goals
    simp [applyIgroup, hst, get_cd_action, hM, hr, validate_modify, Modify.isEmpty,
      Except.map]

/-- Helper: a second run with desired state absent against an absent record
reports no change. -/
theorem apply_absent_changed_false (env : Env) (p : IgroupParams) (old2 : Option Igroup)
    (hst : p.state = DState.absent) :
    (applyIgroup env p none old2).map ApplyOk.changed = Except.ok false := by
  by_cases hr : env.use_rest
  all_goals
    simp [applyIgroup, hst, get_cd_action, hr, validate_modify, Modify.isEmpty, Except.map]

/-- Helper: no reported name change means the names agree. -/
theorem mod_name_none (c : Igroup) (p : IgroupParams)
    (h : (get_modified_attributes c p).name = none) : p.name = c.name := by
  by_cases hv : p.name = c.name
  · exact hv
  · simp [get_modified_attributes, hv] at h

/-- Helper: a reported name change carries the desired name as new value. -/
theorem mod_name_some (c : Igroup) (p : IgroupParams) (pr : String × String)
    (h : (get_modified_attributes c p).name = some pr) : pr.2 = p.name := by
  by_cases hv : p.name = c.name
  · simp [get_modified_attributes, hv] at h
  · simp [get_modified_attributes, hv] at h
    rw [← h]

/-- Helper: no reported vserver change means the vservers agree. -/
theorem mod_vserver_none (c : Igroup) (p : IgroupParams)
    (h : (get_modified_attributes c p).vserver = none) : p.vserver = c.vserver := by
  by_cases hv : p.vserver = c.vserver
  · exact hv
  · simp [get_modified_attributes, hv] at h

/-- Helper: no reported os_type change means any desired os_type agrees. -/
theorem mod_os_none (c : Igroup) (p : IgroupParams)
    (h : (get_modified_attributes c p).os_type = none) :
    ∀ v, p.os_type = some v → v = c.os_type := by
  intro v hv
  by_cases hx : v = c.os_type
  · exact hx
  · simp [get_modified_attributes, hv, hx] at h

/-- Helper: a reported os_type change carries the desired value as new. -/
theorem mod_os_some (c : Igroup) (p : IgroupParams) (pr : String × String)
    (h : (get_modified_attributes c p).os_type = some pr) : p.os_type = some pr.2 := by
  cases ho : p.os_type with
  | none => simp [get_modified_attributes, ho] at h
  | some v =>
    by_cases hx : v = c.os_type
    · simp [get_modified_attributes, ho, hx] at h
    · simp [get_modified_attributes, ho, hx] at h
      rw [← h]

/-- Helper: no reported protocol change means any desired protocol agrees. -/
theorem mod_igtype_none (c : Igroup) (p : IgroupParams)
    (h : (get_modified_attributes c p).initiator_group_type = none) :
    ∀ v, p.initiator_group_type = some v → v = c.initiator_group_type := by
  intro v hv
  by_cases hx : v = c.initiator_group_type
  · exact hx
  · simp [get_modified_attributes, hv, hx] at h

/-- Helper: no reported initiators change means any desired list is
set-equal to the observed one. -/
theorem mod_inits_none (c : Igroup) (p : IgroupParams)
    (h : (get_modified_attributes c p).initiators = none) :
    ∀ l, p.initiators = some l → sameSet l c.initiators = true := by
  intro l hl
  by_cases hx : sameSet l c.initiators = true
  · exact hx
  · simp [get_modified_attributes, hl, hx] at h

/-- Helper: the PATCH calls of a modify set the subject's name and os_type
to the reported new values, other fields being rejected beforehand. -/
theorem exec_patchCalls (c : Igroup) (m : Modify)
    (hvs : m.vserver = none) (hig : m.initiator_group_type = none) :
    execCalls (some c) (patchCalls (some c.uuid) m) =
      some { c with name := (m.name.map Prod.snd).getD c.name,
                    os_type := (m.os_type.map Prod.snd).getD c.os_type } := by
  by_cases hre : (({ m with initiators := none } : Modify)).isEmpty = true
  · have hre2 := hre
    simp [Modify.isEmpty, hvs, hig] at hre2
    obtain ⟨hn, ho⟩ := hre2
    simp [patchCalls, Modify.isEmpty, hn, ho, hvs, hig, execCalls]
  · have hp : patchCalls (some c.uuid) m =
        [Call.patchIg c.uuid (m.name.map Prod.snd) (m.os_type.map Prod.snd)] := by
      simp only [patchCalls, hre, if_false, Option.getD_some]
      simp [hre]
    rw [hp]
    exact exec_patch c (m.name.map Prod.snd) (m.os_type.map Prod.snd)

/-- Helper: after a completing REST modify pass over an observed record
whose vserver and protocol are unchanged, a second run reports no change. -/
theorem rest_modify_idem (env : Env) (p : IgroupParams) (c : Igroup) (old2 : Option Igroup)
    (hst : p.state = DState.present)
    (hsent : ¬ p.initiators = some [""])
    (hvs : (get_modified_attributes c p).vserver = none)
    (hig : (get_modified_attributes c p).initiator_group_type = none) :
    (applyIgroup env p
      (execCalls (some c)
        ((removeCalls true (some c.uuid) p c.initiators
          ++ addCalls true (some c.uuid) p c.initiators)
            ++ patchCalls (some c.uuid) (get_modified_attributes c p))) old2).map
      ApplyOk.changed = Except.ok false := by
  rw [execCalls_append, execCalls_append]
  rw [exec_removeCalls_rest c p c.initiators]
  have hadd := exec_addCalls_rest
    { c with initiators :=
        c.initiators.filter (fun x => !(initiators_to_remove p c.initiators).contains x) }
    p c.initiators
  simp only at hadd
  rw [hadd]
  have hpatch := exec_patchCalls
    { { c with initiators :=
          ((c.initiators.filter
            (fun x => !(initiators_to_remove p c.initiators).contains x))
            ++ initiators_to_add p c.initiators) } with uuid := c.uuid }
    (get_modified_attributes c p) hvs hig
  simp only at hpatch
  rw [hpatch]
  apply apply_changed_false env p _ old2 hst
  apply get_modified_attributes_empty
  · cases hnm : (get_modified_attributes c p).name with
    | none =>
      simp only [hnm, Option.map_none', Option.getD_none]
      exact mod_name_none c p hnm
    | some pr =>
      simp only [hnm, Option.map_some', Option.getD_some]
      exact (mod_name_some c p pr hnm).symm
  · exact mod_vserver_none c p hvs
  · cases hos : (get_modified_attributes c p).os_type with
    | none =>
      simp only [hos, Option.map_none', Option.getD_none]
      exact mod_os_none c p hos
    | some pr =>
      simp only [hos, Option.map_some', Option.getD_some]
      intro v hv
      have := mod_os_some c p pr hos
      rw [hv] at this
      exact (Option.some.injEq _ _ ▸ this).symm ▸ rfl
  · exact mod_igtype_none c p hig
  · intro l hl
    have hls : ¬ l = [""] := fun hh => hsent (hh ▸ hl)
    exact sameSet_converged p l c.initiators hl hls

/-- Helper: after a completing ZAPI modify pass (only initiators may
change), a second run reports no change. -/
theorem zapi_modify_idem (env : Env) (p : IgroupParams) (c : Igroup) (old2 : Option Igroup)
    (mm : Modify)
    (hst : p.state = DState.present)
    (hsent : ¬ p.initiators = some [""])
    (hname : p.name = c.name)
    (hvs : p.vserver = c.vserver)
    (hos : ∀ v, p.os_type = some v → v = c.os_type)
    (higt : ∀ v, p.initiator_group_type = some v → v = c.initiator_group_type)
    (hml : (({ mm with initiators := none } : Modify)).isEmpty = true) :
    (applyIgroup env p
      (execCalls (some c)
        ((removeCalls false none p c.initiators
          ++ addCalls false none p c.initiators) ++ patchCalls none mm)) old2).map
      ApplyOk.changed = Except.ok false := by
  have hpc : patchCalls none mm = [] := by
    simp only [patchCalls]
    rw [if_pos hml]
  rw [hpc, List.append_nil, execCalls_append]
  rw [exec_removeCalls_zapi c p none c.initiators]
  have hadd := exec_addCalls_zapi
    { c with initiators :=
        c.initiators.filter (fun x => !(initiators_to_remove p c.initiators).contains x) }
    p none c.initiators
  simp only at hadd
  rw [hadd]
  apply apply_changed_false env p _ old2 hst
  exact get_modified_attributes_empty _ p hname hvs hos higt
    (fun l hl =>
      sameSet_converged p l c.initiators hl (fun hh => hsent (hh ▸ hl)))

/-- Helper: after a create pass, a second run reports no change. -/
theorem create_idem (env : Env) (p : IgroupParams) (old2 : Option Igroup)
    (hst : p.state = DState.present) (hsent : ¬ p.initiators = some [""]) :
    (applyIgroup env p (execCalls none (create_calls env.use_rest p)) old2).map
      ApplyOk.changed = Except.ok false := by
  by_cases hr : env.use_rest = true
  · rw [hr]
    simp only [create_calls, if_true, execCalls, List.foldl_cons, List.foldl_nil, execCall]
    apply apply_changed_false env p _ old2 hst
    apply get_modified_attributes_empty
    · rfl
    · rfl
    · intro v hv
      rw [hv]
      rfl
    · intro v hv
      rw [hv]
      rfl
    · intro l hl
      rw [hl]
      exact sameSet_refl l
  · rw [Bool.not_eq_true] at hr
    rw [hr]
    simp only [create_calls, Bool.false_eq_true, if_false]
    have hstep : execCalls none
        (Call.createIg
          { name := p.name, vserver := p.vserver, os_type := p.os_type,
            protocol := p.initiator_group_type, portset := p.bind_portset,
            initiators := none }
          :: (initiators_to_add p []).map (Call.addInitiatorZapi p.name)) =
        execCalls
          (some { name := p.name, uuid := freshUuid, vserver := p.vserver,
                  os_type := p.os_type.getD remoteDefaultOsType,
                  initiator_group_type := p.initiator_group_type.getD remoteDefaultProtocol,
                  initiators := [] })
          ((initiators_to_add p []).map (Call.addInitiatorZapi p.name)) := by
      rfl
    rw [hstep]
    have hadd := exec_add_zapi
      { name := p.name, uuid := freshUuid, vserver := p.vserver,
        os_type := p.os_type.getD remoteDefaultOsType,
        initiator_group_type := p.initiator_group_type.getD remoteDefaultProtocol,
        initiators := [] }
      p.name (initiators_to_add p [])
    simp only at hadd
    rw [hadd]
    apply apply_changed_false env p _ old2 hst
    apply get_modified_attributes_empty
    · rfl
    · rfl
    · intro v hv
      rw [hv]
      rfl
    · intro v hv
      rw [hv]
      rfl
    · intro l hl
      have hls : ¬ l = [""] := fun hh => hsent (hh ▸ hl)
      simp only [initiators_to_add, hl, hls, if_false, List.contains_nil, Bool.not_false,
        List.nil_append]
      rw [List.filter_true]
      exact sameSet_refl l

/-- Helper: a second Azure run against the remote state left by a
completed real run reports no change. -/
theorem azExec_idempotent (q : AzParams) (cur : Option AzVolume)
    (cmt : Option (List MountTarget)) (s : AzResult) (cmt2 : Option (List MountTarget))
    (h : azExecModule false q cur cmt = Except.ok s) :
    (azExecModule false q s.after cmt2).map AzResult.changed = Except.ok false := by
  cases hq : q.state with
  | absent =>
    cases cur with
    | none =>
      simp [azExecModule, azAfterState, get_cd_action, hq] at h
      rw [← h]
      simp [azExecModule, azAfterState, get_cd_action, hq, Except.map]
    | some c =>
      simp [azExecModule, azAfterState, get_cd_action, hq] at h
      rw [← h]
      simp [azExecModule, azAfterState, get_cd_action, hq, Except.map]
  | present =>
    cases cur with
    | none =>
      simp only [azExecModule, azAfterState, get_cd_action, hq, Option.isSome_some,
        Bool.not_false, and_true, true_and, if_true, and_self] at h
      cases cmt with
      | none => exact absurd h (by simp)
      | some mts =>
        cases mts with
        | nil => exact absurd h (by simp)
        | cons t ts =>
          injection h with h2
          subst h2
          simp [azExecModule, azAfterState, get_cd_action, hq, Except.map]
    | some c =>
      simp [azExecModule, azAfterState, get_cd_action, hq] at h
      cases hmt : c.mount_targets with
      | none =>
        rw [hmt] at h
        exact absurd h (by simp)
      | some mts =>
        rw [hmt] at h
        cases mts with
        | nil => exact absurd h (by simp)
        | cons t ts =>
          injection h with h2
          subst h2
          simp [azExecModule, azAfterState, get_cd_action, hq, hmt, Except.map]

/-- Helper: a successful Azure run always reports the create/delete action
computed by `get_cd_action` on the observed state. -/
theorem azExec_cd_action (cm : Bool) (q : AzParams) (cur : Option AzVolume)
    (cmt : Option (List MountTarget)) (s : AzResult)
    (h : azExecModule cm q cur cmt = Except.ok s) :
    s.cd_action = get_cd_action cur q.state := by
  simp only [azExecModule] at h
  split at h
  · split at h
    · exact absurd h (by simp)
    · split at h
      · exact absurd h (by simp)
      · exact absurd h (by simp)
      · injection h with h2
        subst h2
        rfl
  · injection h with h2
    subst h2
    rfl

/-- C1 as stated fails on the rename path: in a run where the observed
igroup is absent and the desired state is present, a truthy `from_name`
naming an existing igroup makes the chosen action rename, not create. -/
theorem c1_counterexample :
    pRename.state = DState.present ∧
    get_cd_action (none : Option Igroup) pRename.state = some CDAction.create ∧
    (applyIgroup envZapi pRename none (some oldGrp0)).map ApplyOk.action =
      Except.ok (some "rename") := by
  exact ⟨rfl, rfl, rfl⟩

/-- C1 amended: the action table holds with a rename carve-out.  Absent +
present chooses create only when no truthy `from_name` is given; with a
`from_name` naming an existing igroup the action is rename (ZAPI) or a
modify carrying the name change (REST).  Present + absent chooses delete,
present + present chooses modify exactly when a comparable field differs,
and otherwise no action; the Azure module, which compares no fields,
follows the same table without a modify case. -/
theorem c1_action_table (env : Env) (p : IgroupParams) (current old : Option Igroup)
    (r : ApplyOk) (h : applyIgroup env p current old = Except.ok r) :
    (current = none → p.state = DState.present → fromNameGiven p = false →
      r.action = some "create") ∧
    (∀ c, current = some c → p.state = DState.absent → r.action = some "delete") ∧
    (∀ c, current = some c → c.name = p.name → p.state = DState.present →
      ((get_modified_attributes c p).isEmpty = false → r.action = some "modify") ∧
      ((get_modified_attributes c p).isEmpty = true → r.action = none)) ∧
    (current = none → p.state = DState.absent → r.action = none) ∧
    (current = none → p.state = DState.present → fromNameGiven p = true →
      ∀ o, old = some o → ¬ o.name = p.name →
        r.action = (if env.use_rest then some "modify" else some "rename")) ∧
    (∀ cm q cur cmt s, azExecModule cm q cur cmt = Except.ok s →
      ((cur = none → q.state = DState.present → s.cd_action = some CDAction.create) ∧
       (¬ cur = none → q.state = DState.absent → s.cd_action = some CDAction.delete) ∧
       (¬ cur = none → q.state = DState.present → s.cd_action = none) ∧
       (cur = none → q.state = DState.absent → s.cd_action = none))) := by
  refine ⟨?_, ?_, ?_, ?_, ?_, ?_⟩
  · intro hc hst hfn
    subst hc
    simp [applyIgroup, hst, hfn, get_cd_action, validate_modify, Modify.isEmpty] at h
    split at h
    · exact absurd h (by simp)
    · injection h with h2
      subst h2
      rfl
  · intro c hc habs
    subst hc
    simp [applyIgroup, habs, get_cd_action, validate_modify, Modify.isEmpty] at h
    subst h
    rfl
  · intro c hc hnm hst
    subst hc
    have hpn : p.name = c.name := hnm.symm
    have hmn : (get_modified_attributes c p).name = none := by
      simp [get_modified_attributes, hpn]
    have hupd : { get_modified_attributes c p with name := none } =
        get_modified_attributes c p := by rw [← hmn]
    simp only [applyIgroup, hst, get_cd_action] at h
    simp only [show ((none : Option CDAction) = some CDAction.create) = False from by simp,
      false_and, if_false, and_true, if_true,
      show ((none : Option CDAction) = none) = True from by simp, true_and] at h
    by_cases hr : env.use_rest
    all_goals simp only [hr, if_true, if_false, Bool.false_eq_true, hupd] at h
    all_goals split at h
    · exact absurd h (by simp)
    · injection h with h2
      subst h2
      exact ⟨fun hne => by simp [ApplyOk.action, hne],
        fun hemp => by simp [ApplyOk.action, hemp]⟩
    · exact absurd h (by simp)
    · injection h with h2
      subst h2
      exact ⟨fun hne => by simp [ApplyOk.action, hne],
        fun hemp => by simp [ApplyOk.action, hemp]⟩
  · intro hc habs
    subst hc
    simp [applyIgroup, habs, get_cd_action, validate_modify, Modify.isEmpty] at h
    subst h
    rfl
  · intro hc hst hfn o hold hno
    subst hc
    subst hold
    have hne : ¬ p.name = o.name := fun hh => hno hh.symm
    have hmn : (get_modified_attributes o p).name = some (o.name, p.name) := by
      simp [get_modified_attributes, hne]
    simp only [applyIgroup, hst, hfn, get_cd_action, is_rename_action, and_true, if_true,
      and_self] at h
    simp only [show ((none : Option CDAction) = some CDAction.create) = False from by simp,
      false_and, if_false, and_true, if_true,
      show ((none : Option CDAction) = none) = True from by simp, true_and] at h
    by_cases hr : env.use_rest
    all_goals simp only [hr, if_true, if_false, Bool.false_eq_true, validate_modify] at h
    all_goals split at h
    · exact absurd h (by simp)
    · injection h with h2
      subst h2
      simp [ApplyOk.action, Modify.isEmpty, hmn, hr]
    · exact absurd h (by simp)
    · injection h with h2
      subst h2
      simp [ApplyOk.action, hr]
  · intro cm q cur cmt s hs
    have hcd := azExec_cd_action cm q cur cmt s hs
    refine ⟨?_, ?_, ?_, ?_⟩
    · intro hc hst
      subst hc
      rw [hcd, hst]
      rfl
    · intro hc hst
      cases cur with
      | none => exact absurd rfl hc
      | some c =>
        rw [hcd, hst]
        rfl
    · intro hc hst
      cases cur with
      | none => exact absurd rfl hc
      | some c =>
        rw [hcd, hst]
        rfl
    · intro hc hst
      subst hc
      rw [hcd, hst]
      rfl

/-- C1 witness: a REST run on an absent igroup with no from_name chooses
the create action. -/
theorem c1_witness :
    (applyIgroup envRest pCreateW none none).map ApplyOk.action =
      Except.ok (some "create") := by
  have h : applyIgroup envRest pCreateW none none = Except.ok rCreateW := by rfl
  have ha := (c1_action_table envRest pCreateW none none rCreateW h).1 rfl rfl rfl
  rw [h]
  simp [Except.map, ha]

/-- C3: in a run that would otherwise create (observed igroup absent,
desired state present) with a truthy `from_name`: when no igroup named
`from_name` exists either, the run fails with the from_name-not-found
error; when one exists, a completing run issues no create and no delete,
reports a change, and leaves a resource that keeps the old igroup's uuid
while now carrying the requested name (a rename call under ZAPI, a name
patch under REST). -/
theorem c3_from_name_rename (env : Env) (p : IgroupParams) (old : Option Igroup)
    (hcm : env.check_mode = false) (hst : p.state = DState.present)
    (hfn : fromNameGiven p = true) :
    (old = none → applyIgroup env p none old = Except.error IgErr.fromNameNotFound) ∧
    (∀ o r, old = some o → ¬ o.name = p.name →
      applyIgroup env p none old = Except.ok r →
      (∀ b, ¬ Call.createIg b ∈ r.calls) ∧ (∀ u, ¬ Call.deleteIg u ∈ r.calls) ∧
      r.changed = true ∧
      (∃ g, execCalls r.current r.calls = some g ∧ g.uuid = o.uuid ∧ g.name = p.name)) := by
  constructor
  · intro hold
    subst hold
    simp [applyIgroup, hst, hfn, get_cd_action, is_rename_action]
  · intro o r hold hno h
    subst hold
    have hne : ¬ p.name = o.name := fun hh => hno hh.symm
    have hmn : (get_modified_attributes o p).name = some (o.name, p.name) := by
      simp [get_modified_attributes, hne]
    simp only [applyIgroup, hst, hfn, get_cd_action, is_rename_action, and_true, if_true,
      and_self] at h
    simp only [show ((none : Option CDAction) = some CDAction.create) = False from by simp,
      false_and, if_false, and_true, if_true,
      show ((none : Option CDAction) = none) = True from by simp, true_and] at h
    by_cases hr : env.use_rest
    all_goals simp only [hr, if_true, if_false, Bool.false_eq_true, validate_modify] at h
    all_goals split at h
    · exact absurd h (by simp)
    · -- REST: the rename is carried by the modify patch on the old uuid
      rename_i hval
      injection h with h2
      subst h2
      have hMne : (get_modified_attributes o p).isEmpty = false := by
        simp [Modify.isEmpty, hmn]
      have hpc : patchCalls (some o.uuid) (get_modified_attributes o p) =
          [Call.patchIg o.uuid (some p.name)
            ((get_modified_attributes o p).os_type.map Prod.snd)] := by
        simp [patchCalls, Modify.isEmpty, hmn]
      refine ⟨?_, ?_, ?_, ?_⟩
      · intro b
        simp [hcm, hMne, hpc, removeCalls, addCalls, List.mem_append, List.mem_map]
        split <;> simp
      · intro u
        simp [hcm, hMne, hpc, removeCalls, addCalls, List.mem_append, List.mem_map]
        split <;> simp
      · simp
      · simp only [hcm, hMne, Bool.not_false, and_true, if_true, Bool.true_and,
          Bool.not_true, Bool.false_eq_true, if_false, List.nil_append, hpc,
          Option.isSome_some, Bool.true_or, Option.map_some', Option.getD_some,
          show ((none : Option CDAction) = some CDAction.delete) = False from by simp]
        rw [execCalls_append, execCalls_append]
        rw [exec_removeCalls_rest o p o.initiators]
        have hadd := exec_addCalls_rest
          { o with initiators :=
              o.initiators.filter (fun x => !(initiators_to_remove p o.initiators).contains x) }
          p o.initiators
        simp only at hadd
        rw [hadd]
        simp only [execCalls, List.foldl_cons, List.foldl_nil, execCall, Option.map_some',
          eq_self_iff_true, if_true]
        exact ⟨_, rfl, rfl, rfl⟩
    · exact absurd h (by simp)
    · -- ZAPI: an igroup-rename call is issued first
      rename_i hval
      injection h with h2
      subst h2
      split at hval
      all_goals try simp at hval
      rename_i hC
      have hpc : patchCalls none
          ({ get_modified_attributes o p with name := none } : Modify) = [] := by
        simp only [patchCalls]
        rw [if_pos hC]
      refine ⟨?_, ?_, ?_, ?_⟩
      · intro b
        simp [hcm, hpc, removeCalls, addCalls, List.mem_append, List.mem_map]
      · intro u
        simp [hcm, hpc, removeCalls, addCalls, List.mem_append, List.mem_map]
      · simp
      · simp only [hcm, Bool.not_false, and_true, if_true, Bool.true_and, hpc,
          List.append_nil, Option.isSome_some, Bool.true_or, Option.map_some',
          Option.getD_some]
        by_cases hM : (({ get_modified_attributes o p with name := none } : Modify)).isEmpty
        · simp only [hM, Bool.not_true, Bool.false_eq_true, if_false, List.append_nil]
          simp only [execCalls, List.foldl_cons, List.foldl_nil, execCall, Option.map_some']
          exact ⟨_, rfl, rfl, rfl⟩
        · simp only [Bool.not_eq_true] at hM
          simp only [hM, Bool.not_false, if_true]
          rw [execCalls_append, execCalls_append]
          have hren : execCalls (some o) [Call.renameIg (p.from_name.getD "") p.name] =
              some { o with name := p.name } := by
            simp [execCalls, execCall]
          rw [hren]
          have hrem := exec_removeCalls_zapi ({ o with name := p.name }) p none o.initiators
          simp only at hrem
          rw [hrem]
          have hadd := exec_addCalls_zapi
            { { o with name := p.name } with
                initiators := (o.initiators.filter
                  (fun x => !(initiators_to_remove p o.initiators).contains x)) }
            p none o.initiators
          simp only at hadd
          rw [hadd]
          exact ⟨_, rfl, rfl, rfl⟩

/-- C3 witness: renaming grp0 to ig1 over ZAPI issues a rename (no create),
reports a change, and the surviving resource keeps uuid u0 under the new
name. -/
theorem c3_witness :
    applyIgroup envZapi pRename none (some oldGrp0) = Except.ok rRenameW ∧
    (¬ Call.createIg
        { name := "ig1", vserver := "vs", os_type := none, protocol := none,
          portset := none, initiators := none } ∈ rRenameW.calls) ∧
    rRenameW.changed = true ∧
    execCalls rRenameW.current rRenameW.calls = some { oldGrp0 with name := "ig1" } := by
  have h := (c3_from_name_rename envZapi pRename (some oldGrp0) rfl rfl rfl).2
    oldGrp0 rRenameW rfl (by decide) (by rfl)
  exact ⟨by rfl, h.1 _, h.2.2.1, by rfl⟩

end Netapp

namespace Netapp

/-- C5 witness: the amended statement at concrete inputs — a mixed-case and
an upper-case spelling of the same WWN compare equal after desired-side
sanitization, no change is reported against a remote that stores the
sanitized form, NFSv4.1 is recognized in any spelling, and a 100 GiB size
becomes 107374182400 bytes. -/
theorem c5_witness :
    get_modified_attributes obsWwnLower
        (set_initiators_param pWwnBase (some ["20:00:00:25:b5:00:20:01"])) =
      get_modified_attributes obsWwnLower (set_initiators_param pWwnBase (some [wwnUpper])) ∧
    (get_modified_attributes obsWwnLower
        (set_initiators_param pWwnBase (some [wwnUpper]))).initiators = none ∧
    get_export_policy_rules (some ["NFSv4.1"]) = get_export_policy_rules (some ["nfsv4.1"]) ∧
    (azCreateBody pAzSized).usage_threshold = some 107374182400 := by
  have h := c5_desired_side_normalization obsWwnLower pWwnBase
    ["20:00:00:25:b5:00:20:01"] [wwnUpper] [wwnUpper] ["NFSv4.1"] ["nfsv4.1"] pAzSized
  exact ⟨h.1 (by decide), h.2.1 (by decide) (by decide), h.2.2.1 (by decide),
    h.2.2.2.trans (by decide)⟩

/-- C2 as stated fails on the sentinel initiator list: a run with desired
initiators [""] against ig1 completes with changed = true and empties the
igroup, but the next run on the unchanged remote result again reports
changed = true. -/
theorem c2_counterexample :
    (applyIgroup envRest pSentinel (some curIg1) none).map ApplyOk.changed =
      Except.ok true ∧
    (applyIgroup envRest pSentinel (some curIg1) none).map
      (fun r => execCalls r.current r.calls) = Except.ok (some curIg1Empty) ∧
    (applyIgroup envRest pSentinel (some curIg1Empty) none).map ApplyOk.changed =
      Except.ok true := by
  refine ⟨by rfl, by rfl, by rfl⟩

/-- C2 amended: idempotence holds for every real (non-check-mode) run whose
desired initiators are not the sentinel [""], given lookups consistent with
the requested name: once a run completes, running again against the remote
state its calls produced decides no action and reports changed = false; the
Azure module is unconditionally idempotent. -/
theorem c2_idempotence (env : Env) (p : IgroupParams) (current old : Option Igroup)
    (r : ApplyOk) (old2 : Option Igroup)
    (hcm : env.check_mode = false)
    (hsent : ¬ p.initiators = some [""])
    (hcur : ∀ c, current = some c → c.name = p.name)
    (h : applyIgroup env p current old = Except.ok r) :
    (applyIgroup env p (execCalls r.current r.calls) old2).map ApplyOk.changed =
      Except.ok false ∧
    (∀ q cur cmt s cmt2, azExecModule false q cur cmt = Except.ok s →
      (azExecModule false q s.after cmt2).map AzResult.changed = Except.ok false) := by
  refine ⟨?_, fun q cur cmt s cmt2 hs => azExec_idempotent q cur cmt s cmt2 hs⟩
  have hF1 : ((none : Option CDAction) = some CDAction.create) = False := by simp
  have hF2 : ((none : Option CDAction) = some CDAction.delete) = False := by simp
  have hTn : ((none : Option CDAction) = none) = True := by simp
  cases hst : p.state with
  | absent =>
    cases current with
    | none =>
      simp [applyIgroup, hst, get_cd_action, validate_modify, Modify.isEmpty] at h
      subst h
      have := apply_absent_changed_false env p old2 hst
      simpa [execCalls] using this
    | some c =>
      simp [applyIgroup, hst, get_cd_action, validate_modify, Modify.isEmpty, hcm] at h
      subst h
      have := apply_absent_changed_false env p old2 hst
      simpa [execCalls, execCall] using this
  | present =>
    cases current with
    | some c =>
      have hname : c.name = p.name := hcur c rfl
      have hpn : p.name = c.name := hname.symm
      have hmn : (get_modified_attributes c p).name = none := by
        simp [get_modified_attributes, hpn]
      have hupd : { get_modified_attributes c p with name := none } =
          get_modified_attributes c p := by rw [← hmn]
      simp only [applyIgroup, hst, get_cd_action] at h
      simp only [hF1, false_and, if_false, and_true, if_true, hTn, true_and] at h
      by_cases hr : env.use_rest
      all_goals simp only [hr, if_true, if_false, Bool.false_eq_true, hupd, hcm,
        Bool.not_false, and_true] at h
      all_goals split at h
      · exact absurd h (by simp)
      · -- REST: only initiators, name, os_type may differ
        rename_i hval
        injection h with h2
        subst h2
        simp [validate_modify] at hval
        obtain ⟨hvs, hig⟩ := hval
        by_cases hM : (get_modified_attributes c p).isEmpty = true
        · simp only [hM, Bool.not_true, Option.isSome_none, Bool.false_or,
            Bool.false_eq_true, false_and, if_false]
          simp only [execCalls, List.foldl_nil]
          exact apply_changed_false env p c old2 hst ((modify_isEmpty_iff _).mp hM)
        · rw [Bool.not_eq_true] at hM
          simp only [hM, Bool.not_false, Option.isSome_none, Bool.false_or, if_true,
            true_and, hF1, hF2, if_false, List.nil_append, Option.map_some',
            Option.getD_some]
          exact rest_modify_idem env p c old2 hst hsent hvs hig
      · exact absurd h (by simp)
      · -- ZAPI: only initiators may differ
        rename_i hval
        injection h with h2
        subst h2
        simp [validate_modify, Modify.isEmpty, hmn] at hval
        obtain ⟨hvs1, hos1, hig1⟩ := hval
        by_cases hM : (get_modified_attributes c p).isEmpty = true
        · simp only [hM, Bool.not_true, Option.isSome_none, Bool.false_or,
            Bool.false_eq_true, false_and, if_false]
          simp only [execCalls, List.foldl_nil]
          exact apply_changed_false env p c old2 hst ((modify_isEmpty_iff _).mp hM)
        · rw [Bool.not_eq_true] at hM
          simp only [hM, Bool.not_false, Option.isSome_none, Bool.false_or, if_true,
            true_and, hF1, hF2, if_false, List.nil_append, Option.map_some',
            Option.getD_some]
          exact zapi_modify_idem env p c old2 (get_modified_attributes c p) hst hsent hpn
            (mod_vserver_none c p hvs1) (mod_os_none c p hos1) (mod_igtype_none c p hig1)
            (by simp [Modify.isEmpty, hmn, hvs1, hos1, hig1])
    | none =>
      simp only [applyIgroup, hst, get_cd_action] at h
      by_cases hfn : fromNameGiven p = true
      · -- rename path
        cases old with
        | none => simp [hfn, is_rename_action] at h
        | some o =>
          simp only [hfn, is_rename_action, and_self, and_true, if_true] at h
          simp only [hF1, false_and, if_false, and_true, if_true, hTn, true_and] at h
          by_cases hr : env.use_rest
          all_goals simp only [hr, if_true, if_false, Bool.false_eq_true, hcm,
            Bool.not_false, and_true] at h
          all_goals split at h
          · exact absurd h (by simp)
          · -- REST rename: handled by the modify pass against the old record
            rename_i hval
            injection h with h2
            subst h2
            simp [validate_modify] at hval
            obtain ⟨hvs, hig⟩ := hval
            by_cases hM : (get_modified_attributes o p).isEmpty = true
            · simp only [hM, Bool.not_true, Option.isSome_some, Bool.true_or, if_true,
                true_and, Bool.false_eq_true, if_false, List.append_nil, List.nil_append]
              simp only [execCalls, List.foldl_nil]
              exact apply_changed_false env p o old2 hst ((modify_isEmpty_iff _).mp hM)
            · rw [Bool.not_eq_true] at hM
              simp only [hM, Bool.not_false, Option.isSome_some, Bool.true_or, if_true,
                true_and, hF1, hF2, if_false, List.nil_append, Option.map_some',
                Option.getD_some]
              exact rest_modify_idem env p o old2 hst hsent hvs hig
          · exact absurd h (by simp)
          · -- ZAPI rename: rename first, then the initiator pass
            rename_i hval
            injection h with h2
            subst h2
            simp [validate_modify, Modify.isEmpty] at hval
            obtain ⟨hvs1, hos1, hig1⟩ := hval
            by_cases hM : (({ get_modified_attributes o p with name := none } : Modify)).isEmpty
                = true
            · simp only [hM, Bool.not_true, Option.isSome_some, Bool.true_or, if_true,
                true_and, Bool.false_eq_true, if_false, List.append_nil]
              have hren : execCalls (some o) [Call.renameIg (p.from_name.getD "") p.name] =
                  some { o with name := p.name } := by
                simp [execCalls, execCall]
              rw [hren]
              have hM2 : (((get_modified_attributes o p).vserver = none ∧
                  (get_modified_attributes o p).os_type = none) ∧
                  (get_modified_attributes o p).initiator_group_type = none) ∧
                  (get_modified_attributes o p).initiators = none := by
                simpa [Modify.isEmpty] using hM
              apply apply_changed_false env p _ old2 hst
              exact get_modified_attributes_empty _ p rfl
                (mod_vserver_none o p hM2.1.1.1)
                (mod_os_none o p hM2.1.1.2)
                (mod_igtype_none o p hM2.1.2)
                (mod_inits_none o p hM2.2)
            · rw [Bool.not_eq_true] at hM
              simp only [hM, Bool.not_false, Option.isSome_some, Bool.true_or, if_true,
                true_and, if_false, Option.map_some', Option.getD_some]
              rw [execCalls_append]
              have hren : execCalls (some o) [Call.renameIg (p.from_name.getD "") p.name] =
                  some { o with name := p.name } := by
                simp [execCalls, execCall]
              rw [hren]
              exact zapi_modify_idem env p { o with name := p.name } old2
                { get_modified_attributes o p with name := none } hst hsent rfl
                (mod_vserver_none o p hvs1) (mod_os_none o p hos1)
                (mod_igtype_none o p hig1)
                (by simp [Modify.isEmpty, hvs1, hos1, hig1])
      · -- plain create
        have hfn2 : fromNameGiven p = false := by
          rwa [Bool.not_eq_true] at hfn
        simp only [hfn2, Bool.false_eq_true, and_false, if_false] at h
        simp only [hF1, hTn, and_false, false_and, if_false, validate_modify,
          Modify.isEmpty] at h
        simp only [Option.isNone_none, Bool.and_self, if_true, ite_self] at h
        split at h
        · exact absurd h (by simp)
        · injection h with h2
          subst h2
          simp only [Option.isSome_some, Bool.true_or, Modify.isEmpty, Option.isNone_none,
            Bool.and_self, Bool.not_true, Bool.false_eq_true, if_false, List.append_nil,
            hcm, Bool.not_false, and_true, if_true, true_and, hF2]
          exact create_idem env p old2 hst hsent

/-- C2 witness: replacing the initiators of ig1 by iqn.b over REST reports
a change; re-running against the produced remote state reports none. -/
theorem c2_witness :
    (applyIgroup envRest pIdemW (execCalls rIdemW.current rIdemW.calls) none).map
      ApplyOk.changed = Except.ok false := by
  have h : applyIgroup envRest pIdemW (some curIg1) none = Except.ok rIdemW := by rfl
  exact (c2_idempotence envRest pIdemW (some curIg1) none rIdemW none rfl (by decide)
    (fun c hc => by cases hc; rfl) h).1

end Netapp
